import Mathlib

/-!
Shallow embedding of the market-data validator order book and of the
FIX bridge of the `fix` repository, with theorems settling the claims
about them.

Decimal values (`shopspring/decimal`) are exact fixed-scale rationals;
the code under scrutiny only ever compares them (`GreaterThan`,
`LessThan`, `GreaterThanOrEqual`) and tests them for zero (`IsZero`),
so they are embedded as integers scaled by 100 (two decimal places,
e.g. the price 100.00 is the integer 10000).

Go maps are embedded as association lists with first-occurrence lookup
and in-place update; Go `nil` pointers are embedded as `Option.none`.
Methods that mutate their receiver and return an `error` are embedded
as functions returning the new state paired with an `Option` error.
-/

namespace Fix

/-- Fixed-scale decimal, embedded as a scaled integer. -/
abbrev Dec := Int

/-- Constant `enum.MDEntryType_BID`. -/
def mdEntryTypeBid : String := "0"

/-- Constant `enum.MDEntryType_OFFER`. -/
def mdEntryTypeOffer : String := "1"

/-- Constant `enum.MDEntryType_TRADE`. -/
def mdEntryTypeTrade : String := "2"

/-- Constant `enum.MDUpdateAction_NEW`. -/
def mdUpdateActionNew : String := "0"

/-- Constant `enum.MDUpdateAction_CHANGE`. -/
def mdUpdateActionChange : String := "1"

/-- Constant `enum.MDUpdateAction_DELETE`. -/
def mdUpdateActionDelete : String := "2"

/-- An order of the validator's book (`type Order` of the validator).
`Type_` embeds the Go field `Type` (an `enum.OrdType` string),
`Side` the Go field `Side` (an `enum.MDEntryType` string). -/
structure Order where
  Id : String
  Size : Dec
  RemainingSize : Dec
  Type_ : String
  Side : String
  Price : Dec
deriving Repr, DecidableEq

/-- The Go composite literal `&Order{}`: every field at its zero value. -/
def emptyOrder : Order :=
  { Id := "", Size := 0, RemainingSize := 0, Type_ := "", Side := "", Price := 0 }

/-- Association-list lookup, the read `v, ok := m[k]` of a Go map. -/
def aget {α : Type} : List (String × α) → String → Option α
  | [], _ => none
  | (k, v) :: t, key => if k = key then some v else aget t key

/-- Association-list store, the write `m[k] = v` of a Go map: the first
binding of the key is replaced in place, a missing key is appended. -/
def aset {α : Type} : List (String × α) → String → α → List (String × α)
  | [], key, v => [(key, v)]
  | (k, w) :: t, key, v =>
      if k = key then (key, v) :: t else (k, w) :: aset t key v

/-- Sum of all values of a counter map (`Σ` over a Go `map[...]int64`). -/
def sumVals (m : List (String × Int)) : Int := (m.map Prod.snd).sum

/-- The counter increment of `Orders.AddOrder`:
`if curr, ok := m[k]; ok { m[k] = curr + 1 } else { m[k] = 1 }`. -/
def bump (m : List (String × Int)) (k : String) : List (String × Int) :=
  match aget m k with
  | some v => aset m k (v + 1)
  | none => aset m k 1

/-- Errors returned by the `Orders` methods. `somethingWrongHappened` is
the ad-hoc `fmt.Errorf("something wrong happened")` of `DeleteOrder`. -/
inductive OrdersErr where
  | orderAlreadyExists
  | orderNotFound
  | somethingWrongHappened
deriving Repr, DecidableEq

/-- The order book (`type Orders`), without the mutex: `orders` slice,
per-type and per-side counters, best-order pointers and crossed flag. -/
structure Orders where
  orders : List Order
  typesVolume : List (String × Int)
  sidesVolume : List (String × Int)
  bestBuyOrder : Option Order
  bestSellOrder : Option Order
  isCrossed : Bool
deriving Repr, DecidableEq

/-- Source `Orders.getOrder`: first order with the given id, with its index. -/
def getOrder : List Order → String → Option (Order × Nat)
  | [], _ => none
  | o :: t, id =>
      if o.Id = id then some (o, 0)
      else (getOrder t id).map (fun p => (p.1, p.2 + 1))

/-- Source `Orders.getOrdersBySide`: the orders of one side, in book order. -/
def getOrdersBySide (st : Orders) (side : String) : List Order :=
  st.orders.filter (fun o => o.Side = side)

/-- Source `Orders.fillBestOrder`: replace the best order of the candidate's
side when the candidate strictly improves on it (or the best is nil).
Any side other than `BID` is treated as the sell side, as in the source's
`if/else`. -/
def fillBestOrder (st : Orders) (order : Order) : Orders :=
  if order.Side = mdEntryTypeBid then
    match st.bestBuyOrder with
    | none => { st with bestBuyOrder := some order }
    | some b =>
        if b.Price < order.Price then { st with bestBuyOrder := some order } else st
  else
    match st.bestSellOrder with
    | none => { st with bestSellOrder := some order }
    | some s =>
        if order.Price < s.Price then { st with bestSellOrder := some order } else st

/-- The `UPDATE_BEST_ORDER` block of `Orders.updateBestPrice`: fold
`fillBestOrder` over the orders of one side. -/
def recomputeBest (st : Orders) (side : String) : Orders :=
  (getOrdersBySide st side).foldl fillBestOrder st

/-- Source `Orders.updateBestPrice`. The `goto UPDATE_BEST_ORDER` on a nil best
pointer, the improve-only `fillBestOrder` on a `CHANGE`, and on a `DELETE`
of the current best the reset of the best pointer to `&Order{}` followed by
the fall-through into `UPDATE_BEST_ORDER`; a `DELETE` of a non-best order
returns unchanged. -/
def updateBestPrice (st : Orders) (order : Order) (action : String) : Orders :=
  if (order.Side = mdEntryTypeBid ∧ st.bestBuyOrder = none)
      ∨ (order.Side = mdEntryTypeOffer ∧ st.bestSellOrder = none) then
    recomputeBest st order.Side
  else if action = mdUpdateActionChange then
    fillBestOrder st order
  else if action = mdUpdateActionDelete then
    if order.Side = mdEntryTypeBid ∧ st.bestBuyOrder.map Order.Id = some order.Id then
      recomputeBest { st with bestBuyOrder := some emptyOrder } order.Side
    else if order.Side = mdEntryTypeOffer ∧ st.bestSellOrder.map Order.Id = some order.Id then
      recomputeBest { st with bestSellOrder := some emptyOrder } order.Side
    else st
  else recomputeBest st order.Side

/-- Source `Orders.AddOrder`: fail on a duplicate id, otherwise append the order,
bump both counters and update the best of its side. -/
def AddOrder (st : Orders) (order : Order) : Orders × Option OrdersErr :=
  match getOrder st.orders order.Id with
  | some _ => (st, some .orderAlreadyExists)
  | none =>
    let st' : Orders :=
      { st with
          orders := st.orders ++ [order]
          typesVolume := bump st.typesVolume order.Type_
          sidesVolume := bump st.sidesVolume order.Side }
    (fillBestOrder st' order, none)

/-- Source `Orders.DeleteOrder`: fail on a missing id, otherwise remove the order
from the slice, then decrement the two counters keyed by the ARGUMENT's
type and side — returning `somethingWrongHappened` (with the order already
removed, as the receiver is mutated in place) when a key is absent — and
finally run `updateBestPrice` with the `DELETE` action. -/
def DeleteOrder (st : Orders) (order : Order) : Orders × Option OrdersErr :=
  match getOrder st.orders order.Id with
  | none => (st, some .orderNotFound)
  | some (_, i) =>
    let st1 : Orders := { st with orders := st.orders.eraseIdx i }
    match aget st1.typesVolume order.Type_ with
    | none => (st1, some .somethingWrongHappened)
    | some v =>
      let st2 : Orders := { st1 with typesVolume := aset st1.typesVolume order.Type_ (v - 1) }
      match aget st2.sidesVolume order.Side with
      | none => (st2, some .somethingWrongHappened)
      | some w =>
        let st3 : Orders := { st2 with sidesVolume := aset st2.sidesVolume order.Side (w - 1) }
        (updateBestPrice st3 order mdUpdateActionDelete, none)

/-- Source `Orders.UpdateOrder`: fail on a missing id, otherwise replace the
stored order in place and run `updateBestPrice` with the `CHANGE` action.
The counters are not touched. -/
def UpdateOrder (st : Orders) (order : Order) : Orders × Option OrdersErr :=
  match getOrder st.orders order.Id with
  | none => (st, some .orderNotFound)
  | some (_, i) =>
    let st1 : Orders := { st with orders := st.orders.set i order }
    (updateBestPrice st1 order mdUpdateActionChange, none)

/-- The crossed-book condition tested by `Orders.isOrderBookCrossed`:
both best pointers non-nil, both prices non-zero, buy price ≥ sell price. -/
def crossedCond (st : Orders) : Bool :=
  match st.bestBuyOrder, st.bestSellOrder with
  | some b, some s => decide (b.Price ≠ 0 ∧ s.Price ≠ 0 ∧ s.Price ≤ b.Price)
  | _, _ => false

/-- The two metric handles of crossed detection for one security:
the `book_crossed` gauge and the `crossed_updates_total` counter. -/
structure Metrics where
  bookCrossedGauge : Int
  crossedUpdatesTotal : Int
deriving Repr, DecidableEq

/-- Source `Orders.isOrderBookCrossed`: returns whether the book is crossed and
maintains the `isCrossed` latch together with the two metrics — on an
uncrossed-to-crossed edge the counter is incremented and the gauge set
to 1; when no longer crossed the gauge is set back to 0. -/
def isOrderBookCrossed (st : Orders) (m : Metrics) : Bool × Orders × Metrics :=
  if crossedCond st then
    if st.isCrossed then (true, st, m)
    else
      (true, { st with isCrossed := true },
        { bookCrossedGauge := 1, crossedUpdatesTotal := m.crossedUpdatesTotal + 1 })
  else
    if st.isCrossed then
      (false, { st with isCrossed := false }, { m with bookCrossedGauge := 0 })
    else (false, st, m)

/-- The book a security starts with in `createSecurityList`: empty slice,
empty counter maps, best pointers initialised to `&Order{}` (NOT nil). -/
def initOrders : Orders :=
  { orders := []
    typesVolume := []
    sidesVolume := []
    bestBuyOrder := some emptyOrder
    bestSellOrder := some emptyOrder
    isCrossed := false }

/-- Initial metric values for a security (`cleanSecurityMetrics` adds 0). -/
def initMetrics : Metrics := { bookCrossedGauge := 0, crossedUpdatesTotal := 0 }

/-- One call of the validator into the book: `AddOrder`, `UpdateOrder` or
`DeleteOrder` with an arbitrary argument order. -/
inductive BookOp where
  | add (o : Order)
  | update (o : Order)
  | delete (o : Order)
deriving Repr, DecidableEq

/-- Apply one book operation, yielding the (possibly mutated) book and
the returned error. -/
def applyOp (st : Orders) : BookOp → Orders × Option OrdersErr
  | .add o => AddOrder st o
  | .update o => UpdateOrder st o
  | .delete o => DeleteOrder st o

/-- Run a sequence of book operations, keeping the mutated state across
both successful and failing calls (the Go receiver is mutated in place). -/
def runOps (st : Orders) (ops : List BookOp) : Orders :=
  ops.foldl (fun s op => (applyOp s op).1) st

/-! ## Market-data validator message handlers -/

/-- One `MDEntry` of a market-data message. A field getter that fails in
Go (tag absent) is an `Option.none`. `size` is total: the handlers read
it through `utils.MustNot`, which aborts the process on error, so a run
that completes always saw a size. -/
structure MDEntry where
  entryType : Option String
  orderID : Option String
  ordType : Option String
  px : Option Dec
  size : Dec
  symbol : Option String
  updateAction : Option String
deriving Repr, DecidableEq

/-- A `MarketDataSnapshotFullRefresh`: message-level symbol and the
`NoMDEntries` group (`none` when `GetNoMDEntries` fails). -/
structure SnapshotMsg where
  symbol : Option String
  entries : Option (List MDEntry)
deriving Repr, DecidableEq

/-- A `MarketDataIncrementalRefresh`: only the `NoMDEntries` group. -/
structure IncrementalMsg where
  entries : Option (List MDEntry)
deriving Repr, DecidableEq

/-- The per-security book table `Validator.secList`. -/
abbrev SecList := List (String × Orders)

/-- A `quickfix.MessageRejectError` surfaced by a handler: either a
field-level error from a getter (by tag) or an explicit
`NewMessageRejectError` with a reason string. -/
inductive RejectErr where
  | fieldError (tag : Nat)
  | messageReject (reason : String)
deriving Repr, DecidableEq

/-- Tag `Symbol(55)`. -/
def tagSymbol : Nat := 55

/-- Tag `NoMDEntries(268)`. -/
def tagNoMDEntries : Nat := 268

/-- The per-entry body of the snapshot loop in
`onMarketDataSnapshotFullRefresh`: a Bid/Offer entry with an order id and
an order type is added to the book — the `Order` literal of the source
sets `Id`, `Size`, `RemainingSize`, `Type` and `Side` but NOT `Price`,
which is left at its zero value; an entry with a missing field is skipped
(`continue`), a Trade entry only bumps a metric, an unknown entry type is
logged and skipped; an `AddOrder` error is logged and counted, the book
being left as `AddOrder` left it. -/
def applySnapshotEntry (book : Orders) (e : MDEntry) : Orders :=
  match e.entryType with
  | none => book
  | some et =>
    if et = mdEntryTypeBid ∨ et = mdEntryTypeOffer then
      match e.orderID with
      | none => book
      | some oid =>
        match e.ordType with
        | none => book
        | some ot =>
          (AddOrder book
            { Id := oid, Size := e.size, RemainingSize := e.size,
              Type_ := ot, Side := et, Price := 0 }).1
    else book

/-- Source `MarketDataValidator.onMarketDataSnapshotFullRefresh`: reject when the
message has no `Symbol`, when the symbol is not in the subscribed security
list, or when `GetNoMDEntries` fails; otherwise apply every entry to that
symbol's book and finish with `isOrderBookCrossed`. -/
def onMarketDataSnapshotFullRefresh (sl : SecList) (m : Metrics) (msg : SnapshotMsg) :
    Except RejectErr (SecList × Metrics) :=
  match msg.symbol with
  | none => .error (.fieldError tagSymbol)
  | some security =>
    match aget sl security with
    | none => .error (.messageReject ("symbol not found internally : " ++ security))
    | some orders =>
      match msg.entries with
      | none => .error (.fieldError tagNoMDEntries)
      | some mdentries =>
        let orders' := mdentries.foldl applySnapshotEntry orders
        let r := isOrderBookCrossed orders' m
        .ok (aset sl security r.2.1, r.2.2)

/-- The per-entry body of the incremental loop in
`onMarketDataIncrementalRefresh`: a Bid/Offer entry with an order id, an
order type, a price and an update action is dispatched by
`MDUpdateAction` to `AddOrder` / `UpdateOrder` / `DeleteOrder` (this time
`Price` IS set from `MDEntryPx`); an entry with a missing field is
skipped, a Trade entry only bumps a metric, unknown entry types and
unknown update actions do nothing; operation errors are logged and
counted, the book being left as the operation left it. The entry's own
`Symbol` field is never read here. -/
def applyIncrementalEntry (book : Orders) (e : MDEntry) : Orders :=
  match e.entryType with
  | none => book
  | some et =>
    if et = mdEntryTypeBid ∨ et = mdEntryTypeOffer then
      match e.orderID with
      | none => book
      | some oid =>
        match e.ordType with
        | none => book
        | some ot =>
          match e.px with
          | none => book
          | some px =>
            let order : Order :=
              { Id := oid, Size := e.size, RemainingSize := e.size,
                Type_ := ot, Side := et, Price := px }
            match e.updateAction with
            | none => book
            | some action =>
              if action = mdUpdateActionNew then (AddOrder book order).1
              else if action = mdUpdateActionChange then (UpdateOrder book order).1
              else if action = mdUpdateActionDelete then (DeleteOrder book order).1
              else book
    else book

/-- Source `MarketDataValidator.onMarketDataIncrementalRefresh`: reject when
`GetNoMDEntries` fails, when the group is empty, when the FIRST entry has
no `Symbol`, or when that symbol is not in the subscribed security list;
otherwise apply every entry of the message to that single symbol's book
and finish with `isOrderBookCrossed`. -/
def onMarketDataIncrementalRefresh (sl : SecList) (m : Metrics) (msg : IncrementalMsg) :
    Except RejectErr (SecList × Metrics) :=
  match msg.entries with
  | none => .error (.fieldError tagNoMDEntries)
  | some mdentries =>
    match mdentries with
    | [] => .error (.messageReject "MDEntries seems empty")
    | e0 :: _ =>
      match e0.symbol with
      | none => .error (.fieldError tagSymbol)
      | some security =>
        match aget sl security with
        | none => .error (.messageReject ("security not found: " ++ security))
        | some orders =>
          let orders' := mdentries.foldl applyIncrementalEntry orders
          let r := isOrderBookCrossed orders' m
          .ok (aset sl security r.2.1, r.2.2)

/-! ## Crossed-detection metric traces (validator updates over time) -/

/-- One validator update of a security's book — the book operations of
one handled message — followed by the handler's closing
`isOrderBookCrossed` call which refreshes the latch and the metrics. -/
def validatorStep (s : Orders × Metrics) (ops : List BookOp) : Orders × Metrics :=
  let b := runOps s.1 ops
  let r := isOrderBookCrossed b s.2
  (r.2.1, r.2.2)

/-- A sequence of validator updates to one security's book. -/
def validatorRun (s : Orders × Metrics) (msgs : List (List BookOp)) : Orders × Metrics :=
  msgs.foldl validatorStep s

/-- The crossed/uncrossed observations after each validator update. -/
def crossedTrace (s : Orders × Metrics) : List (List BookOp) → List Bool
  | [] => []
  | ops :: rest =>
    let s' := validatorStep s ops
    crossedCond s'.1 :: crossedTrace s' rest

/-- Number of uncrossed-to-crossed transitions in a trace of
observations, given the state before the first one. -/
def risingCount : Bool → List Bool → Nat
  | _, [] => 0
  | prev, b :: t => (if b ∧ ¬prev then 1 else 0) + risingCount b t

/-! ## FIX bridge (acceptor application) -/

/-- Source `quickfix.SessionID`, reduced to the components the bridge reads. -/
structure SessionID where
  beginString : String
  senderCompID : String
  targetCompID : String
deriving Repr, DecidableEq

/-- Source `quickfix.SessionID.IsFIXT`: the session's `BeginString` is the
FIXT.1.1 transport. -/
def SessionID.IsFIXT (s : SessionID) : Bool := s.beginString = "FIXT.1.1"

/-- The mutable state of the bridge: the ordered list of connected
exchange sessions and the `ClOrdID → client session` correlation table. -/
structure Bridge where
  connectedExchanges : List SessionID
  orderMapping : List (String × SessionID)
deriving Repr, DecidableEq

/-- Source `NewBridge`: empty exchange list, empty correlation table. -/
def newBridge : Bridge := { connectedExchanges := [], orderMapping := [] }

/-- Source `Bridge.OnLogon`: a non-FIXT (exchange) session is appended to
`connectedExchanges`; FIXT (client) sessions are not tracked. -/
def OnLogon (app : Bridge) (sessionID : SessionID) : Bridge :=
  if sessionID.IsFIXT then app
  else { app with connectedExchanges := app.connectedExchanges ++ [sessionID] }

/-- The removal loop of `Bridge.OnLogout`: drop the first occurrence
(the loop `break`s after the first match). -/
def removeFirst : List SessionID → SessionID → List SessionID
  | [], _ => []
  | s :: t, x => if s = x then t else s :: removeFirst t x

/-- Source `Bridge.OnLogout`: for a non-FIXT session, remove its first
occurrence from `connectedExchanges` and then append the session again —
the source's final `append` sits OUTSIDE the removal loop and runs
unconditionally. -/
def OnLogout (app : Bridge) (sessionID : SessionID) : Bridge :=
  if sessionID.IsFIXT then app
  else
    { app with
        connectedExchanges :=
          removeFirst app.connectedExchanges sessionID ++ [sessionID] }

/-- A message body: ordered tag/value pairs, values as raw strings. -/
abbrev Body := List (Nat × String)

/-- Source `FieldMap.GetString` on a body: first binding of the tag. -/
def getString : Body → Nat → Option String
  | [], _ => none
  | (t, v) :: rest, tag => if t = tag then some v else getString rest tag

/-- Tag `ClOrdID(11)`. -/
def tagClOrdID : Nat := 11

/-- A field-description entry `(tag, required?)` of the bridge's copy
lists (the concrete FIX type of the holder does not matter here: values
are carried as raw strings). -/
abbrev FieldDescription := Nat × Bool

/-- Modelled from the spec: the helper `utils.QuickFixMessageCopyFields`
is called by the bridge but its definition is not among the provided
sources. Per the spec (§4.6): for each described field, a required tag
absent from the source yields a `MessageReject`, an optional tag is
copied when present. Repeating-group copying
(`QuickFixMessageCopyPartyIds`) is omitted: no claim depends on the
group contents of a forwarded message. -/
def copyFields (dst : Body) (src : Body) : List FieldDescription → Except RejectErr Body
  | [] => .ok dst
  | (tag, required) :: rest =>
    match getString src tag with
    | some v => copyFields (dst ++ [(tag, v)]) src rest
    | none =>
      if required then .error (.fieldError tag)
      else copyFields dst src rest

/-- The field-description list of `Bridge.onExecutionReportExchange`
(tag, required?), in source order: Account(1), OrderID(37),
SecondaryOrderID(198), OrigClOrdID(41), ExecID(17), TrdMatchID(880),
ExecType(150), OrdStatus(39), Symbol(55), OrdType(40), TimeInForce(59),
Side(54), Price(44), LastPx(31), CumQty(14), OrderQty(38),
LeavesQty(151), LastQty(32), Text(58), TransactTime(60). -/
def execReportFields : List FieldDescription :=
  [(1, false), (37, true), (198, false), (41, false), (17, true),
   (880, false), (150, true), (39, true), (55, true), (40, true),
   (59, true), (54, true), (44, false), (31, false), (14, true),
   (38, false), (151, true), (32, false), (58, false), (60, true)]

/-- Outcome of a bridge handler for one inbound exchange message:
a returned `MessageRejectError`, a silent drop (`return nil` after a
warning log), or a message forwarded to a client session. -/
inductive BridgeAction where
  | rejected (e : RejectErr)
  | dropped
  | forwarded (target : SessionID) (body : Body)
deriving Repr, DecidableEq

/-- Source `Bridge.onExecutionReportExchange`: a missing `ClOrdID` returns a
`MessageRejectError "Missing ClOrdID"`; a `ClOrdID` with no entry in the
correlation table logs a warning and returns nil (message dropped);
otherwise a fresh execution report is built for the recorded client
session — body seeded with the `ClOrdID`, then the described fields
copied — and sent to it (`SendToTarget`, whose transport errors are not
modelled). -/
def onExecutionReportExchange (app : Bridge) (msgBody : Body) : BridgeAction :=
  match getString msgBody tagClOrdID with
  | none => .rejected (.messageReject "Missing ClOrdID")
  | some clOrdId =>
    match aget app.orderMapping clOrdId with
    | none => .dropped
    | some clientSessionID =>
      match copyFields [(tagClOrdID, clOrdId)] msgBody execReportFields with
      | .error e => .rejected e
      | .ok body => .forwarded clientSessionID body

/-! ## Concrete inputs used by the evaluations below -/

/-- Offer "o1" at 100.00 (limit). -/
def offerA : Order :=
  { Id := "o1", Size := 500, RemainingSize := 500, Type_ := "2", Side := "1", Price := 10000 }

/-- Offer "o2" at 101.00 (limit). -/
def offerB : Order :=
  { Id := "o2", Size := 500, RemainingSize := 500, Type_ := "2", Side := "1", Price := 10100 }

/-- Bid "b1" at 100.00 (limit). -/
def bidA : Order :=
  { Id := "b1", Size := 500, RemainingSize := 500, Type_ := "2", Side := "0", Price := 10000 }

/-- Bid "b2" at 90.00 (limit). -/
def bidB : Order :=
  { Id := "b2", Size := 500, RemainingSize := 500, Type_ := "2", Side := "0", Price := 9000 }

/-- Bid "b1" re-priced down to 50.00. -/
def bidAChanged : Order := { bidA with Price := 5000 }

/-- A security list subscribed to the single symbol "ABC". -/
def secListABC : SecList := [("ABC", initOrders)]

/-- Scenario S3's snapshot: one Bid entry, OrderID "o1", MDEntryPx 100.00,
MDEntrySize 10, OrdType 2 (limit), for symbol "ABC". -/
def snapshotS3 : SnapshotMsg :=
  { symbol := some "ABC"
    entries := some
      [{ entryType := some mdEntryTypeBid, orderID := some "o1", ordType := some "2",
         px := some 10000, size := 1000, symbol := some "ABC", updateAction := none }] }

/-- The "ABC" book after the concrete snapshot (the handler succeeds;
the default is never used). -/
def s3Book : Orders :=
  match onMarketDataSnapshotFullRefresh secListABC initMetrics snapshotS3 with
  | .ok (sl, _) => (aget sl "ABC").getD initOrders
  | .error _ => initOrders

/-- A non-FIXT (FIX 4.4) exchange session. -/
def exchSession : SessionID :=
  { beginString := "FIX.4.4", senderCompID := "EXCH", targetCompID := "BRIDGE" }

/-- A limit bid with id "a", as added to the book. -/
def limitBidA : Order :=
  { Id := "a", Size := 100, RemainingSize := 100, Type_ := "2", Side := "0", Price := 10000 }

/-- A delete argument for id "a" carrying OrdType Market ("1") — a type
never added to the book, so absent from `typesVolume`. -/
def marketDeleteA : Order :=
  { Id := "a", Size := 0, RemainingSize := 0, Type_ := "1", Side := "0", Price := 0 }

/-- An execution report body without a `ClOrdID(11)` field. -/
def execReportNoClOrdID : Body := [(37, "ord-1"), (17, "exec-1")]

/-! ## Supporting lemmas -/

/-- Two book states that agree on everything except the two best-order
pointers: the best-order maintenance helpers only ever touch those. -/
def sameCore (st st' : Orders) : Prop :=
  st'.orders = st.orders ∧ st'.typesVolume = st.typesVolume ∧
  st'.sidesVolume = st.sidesVolume ∧ st'.isCrossed = st.isCrossed

theorem sameCore_refl (st : Orders) : sameCore st st := ⟨rfl, rfl, rfl, rfl⟩

theorem sameCore_trans {a b c : Orders} (h1 : sameCore a b) (h2 : sameCore b c) :
    sameCore a c :=
  ⟨h2.1.trans h1.1, h2.2.1.trans h1.2.1, h2.2.2.1.trans h1.2.2.1, h2.2.2.2.trans h1.2.2.2⟩

theorem sameCore_fillBestOrder (st : Orders) (o : Order) :
    sameCore st (fillBestOrder st o) := by
  unfold sameCore fillBestOrder
  split
  · cases hb : st.bestBuyOrder with
    | none => exact ⟨rfl, rfl, rfl, rfl⟩
    | some b => by_cases hp : b.Price < o.Price <;> simp [hp]
  · cases hs : st.bestSellOrder with
    | none => exact ⟨rfl, rfl, rfl, rfl⟩
    | some s => by_cases hp : o.Price < s.Price <;> simp [hp]

theorem sameCore_foldl_fill (l : List Order) :
    ∀ st : Orders, sameCore st (l.foldl fillBestOrder st) := by
  induction l with
  | nil => exact fun st => sameCore_refl st
  | cons o t ih =>
    intro st
    exact sameCore_trans (sameCore_fillBestOrder st o) (ih (fillBestOrder st o))

theorem sameCore_recomputeBest (st : Orders) (side : String) :
    sameCore st (recomputeBest st side) :=
  sameCore_foldl_fill (getOrdersBySide st side) st

theorem sameCore_updateBestPrice (st : Orders) (o : Order) (action : String) :
    sameCore st (updateBestPrice st o action) := by
  unfold updateBestPrice
  split
  · exact sameCore_recomputeBest st o.Side
  · split
    · exact sameCore_fillBestOrder st o
    · split
      · split
        · exact sameCore_trans (⟨rfl, rfl, rfl, rfl⟩ :
            sameCore st { st with bestBuyOrder := some emptyOrder })
            (sameCore_recomputeBest _ o.Side)
        · split
          · exact sameCore_trans (⟨rfl, rfl, rfl, rfl⟩ :
              sameCore st { st with bestSellOrder := some emptyOrder })
              (sameCore_recomputeBest _ o.Side)
          · exact sameCore_refl st
      · exact sameCore_recomputeBest st o.Side

theorem aget_aset_self {α : Type} (m : List (String × α)) (k : String) (v : α) :
    aget (aset m k v) k = some v := by
  induction m with
  | nil => simp [aset, aget]
  | cons h t ih =>
    obtain ⟨k1, v1⟩ := h
    by_cases hk : k1 = k <;> simp [aset, aget, hk, ih]

theorem aget_aset_ne {α : Type} (m : List (String × α)) (k k' : String) (v : α)
    (h : k' ≠ k) : aget (aset m k v) k' = aget m k' := by
  induction m with
  | nil => simp [aset, aget, Ne.symm h]
  | cons hd t ih =>
    obtain ⟨k1, v1⟩ := hd
    by_cases hk : k1 = k
    · subst hk
      simp [aset, aget, Ne.symm h]
    · by_cases hk' : k1 = k'
      · subst hk'
        simp [aset, aget, hk, h]
      · simp [aset, aget, hk, hk', ih]

theorem aget_bump_self (m : List (String × Int)) (k : String) :
    aget (bump m k) k = some ((aget m k).getD 0 + 1) := by
  unfold bump
  cases h : aget m k with
  | none => simp [aget_aset_self]
  | some v => simp [aget_aset_self]

theorem aget_bump_ne (m : List (String × Int)) (k k' : String) (h : k' ≠ k) :
    aget (bump m k) k' = aget m k' := by
  unfold bump
  cases hv : aget m k with
  | none => exact aget_aset_ne m k k' 1 h
  | some v => exact aget_aset_ne m k k' (v + 1) h

theorem sumVals_cons (k : String) (v : Int) (t : List (String × Int)) :
    sumVals ((k, v) :: t) = v + sumVals t := by
  simp [sumVals]

theorem aset_cons_ne {α : Type} (k1 k : String) (v1 : α) (t : List (String × α))
    (v : α) (hk : k1 ≠ k) : aset ((k1, v1) :: t) k v = (k1, v1) :: aset t k v := by
  simp [aset, hk]

theorem sumVals_aset_some (m : List (String × Int)) (k : String) (v w : Int)
    (h : aget m k = some v) : sumVals (aset m k w) = sumVals m - v + w := by
  induction m with
  | nil => simp [aget] at h
  | cons hd t ih =>
    obtain ⟨k1, v1⟩ := hd
    by_cases hk : k1 = k
    · subst hk
      simp [aget] at h
      subst h
      rw [show aset ((k1, v1) :: t) k1 w = (k1, w) :: t from by simp [aset]]
      rw [sumVals_cons, sumVals_cons]
      ring
    · simp [aget, hk] at h
      rw [aset_cons_ne k1 k v1 t w hk, sumVals_cons, sumVals_cons, ih h]
      ring

theorem sumVals_aset_none (m : List (String × Int)) (k : String) (w : Int)
    (h : aget m k = none) : sumVals (aset m k w) = sumVals m + w := by
  induction m with
  | nil => simp [aset, sumVals]
  | cons hd t ih =>
    obtain ⟨k1, v1⟩ := hd
    by_cases hk : k1 = k
    · simp [aget, hk] at h
    · simp [aget, hk] at h
      rw [aset_cons_ne k1 k v1 t w hk, sumVals_cons, sumVals_cons, ih h]
      ring

theorem sumVals_bump (m : List (String × Int)) (k : String) :
    sumVals (bump m k) = sumVals m + 1 := by
  unfold bump
  cases h : aget m k with
  | none => exact sumVals_aset_none m k 1 h
  | some v =>
    rw [sumVals_aset_some m k v (v + 1) h]
    ring

theorem getOrder_snd_lt_length (l : List Order) (id : String) (p : Order × Nat)
    (h : getOrder l id = some p) : p.2 < l.length := by
  induction l generalizing p with
  | nil => simp [getOrder] at h
  | cons o t ih =>
    by_cases ho : o.Id = id
    · simp [getOrder, ho] at h
      subst h
      simp
    · simp [getOrder, ho] at h
      obtain ⟨q1, q2, hq, hpq⟩ := h
      have hlt := ih (q1, q2) hq
      rw [← hpq]
      simp at hlt ⊢
      omega

/-- The bijection of the spec: the number of orders in the book equals
the sum of the per-type counters and the sum of the per-side counters. -/
def balanced (st : Orders) : Prop :=
  (st.orders.length : Int) = sumVals st.typesVolume ∧
  (st.orders.length : Int) = sumVals st.sidesVolume

/-- A delete argument is "safe" in a given state when, if its id is
present, its type and side are keys of the respective counter maps —
exactly the condition under which `DeleteOrder` cannot take the
early `something wrong happened` return. Adds and updates are always
safe. -/
def deleteSafeB (st : Orders) : BookOp → Bool
  | .delete o =>
      !(getOrder st.orders o.Id).isSome ||
        ((aget st.typesVolume o.Type_).isSome && (aget st.sidesVolume o.Side).isSome)
  | _ => true

/-- Every operation of the sequence is safe in the state it runs in. -/
def safeOpsB : Orders → List BookOp → Bool
  | _, [] => true
  | st, op :: rest => deleteSafeB st op && safeOpsB (applyOp st op).1 rest

theorem balanced_applyOp (st : Orders) (op : BookOp) (hb : balanced st)
    (hs : deleteSafeB st op = true) : balanced (applyOp st op).1 := by
  cases op with
  | add o =>
    cases h : getOrder st.orders o.Id with
    | some p => simpa [applyOp, AddOrder, h] using hb
    | none =>
      have h1 : (applyOp st (.add o)).1 = fillBestOrder
          { st with orders := st.orders ++ [o],
                    typesVolume := bump st.typesVolume o.Type_,
                    sidesVolume := bump st.sidesVolume o.Side } o := by
        simp [applyOp, AddOrder, h]
      have hcore := sameCore_fillBestOrder
        { st with orders := st.orders ++ [o],
                  typesVolume := bump st.typesVolume o.Type_,
                  sidesVolume := bump st.sidesVolume o.Side } o
      constructor
      · rw [h1, hcore.1, hcore.2.1]
        show ((st.orders ++ [o]).length : Int) = sumVals (bump st.typesVolume o.Type_)
        rw [List.length_append, sumVals_bump]
        have := hb.1
        simp only [List.length_singleton]
        push_cast
        omega
      · rw [h1, hcore.1, hcore.2.2.1]
        show ((st.orders ++ [o]).length : Int) = sumVals (bump st.sidesVolume o.Side)
        rw [List.length_append, sumVals_bump]
        have := hb.2
        simp only [List.length_singleton]
        push_cast
        omega
  | update o =>
    cases h : getOrder st.orders o.Id with
    | none => simpa [applyOp, UpdateOrder, h] using hb
    | some p =>
      obtain ⟨po, i⟩ := p
      have h1 : (applyOp st (.update o)).1 = updateBestPrice
          { st with orders := st.orders.set i o } o mdUpdateActionChange := by
        simp [applyOp, UpdateOrder, h]
      have hcore := sameCore_updateBestPrice
        { st with orders := st.orders.set i o } o mdUpdateActionChange
      constructor
      · rw [h1, hcore.1, hcore.2.1]
        show ((st.orders.set i o).length : Int) = sumVals st.typesVolume
        rw [List.length_set]
        exact hb.1
      · rw [h1, hcore.1, hcore.2.2.1]
        show ((st.orders.set i o).length : Int) = sumVals st.sidesVolume
        rw [List.length_set]
        exact hb.2
  | delete o =>
    cases h : getOrder st.orders o.Id with
    | none => simpa [applyOp, DeleteOrder, h] using hb
    | some p =>
      obtain ⟨po, i⟩ := p
      have hi : i < st.orders.length :=
        getOrder_snd_lt_length st.orders o.Id (po, i) h
      simp only [deleteSafeB, h, Option.isSome_some, Bool.not_true, Bool.false_or,
        Bool.and_eq_true, Option.isSome_iff_exists] at hs
      obtain ⟨⟨v, hv⟩, ⟨w, hw⟩⟩ := hs
      have h1 : (applyOp st (.delete o)).1 = updateBestPrice
          { st with orders := st.orders.eraseIdx i,
                    typesVolume := aset st.typesVolume o.Type_ (v - 1),
                    sidesVolume := aset st.sidesVolume o.Side (w - 1) }
          o mdUpdateActionDelete := by
        simp [applyOp, DeleteOrder, h, hv, hw]
      have hcore := sameCore_updateBestPrice
        { st with orders := st.orders.eraseIdx i,
                  typesVolume := aset st.typesVolume o.Type_ (v - 1),
                  sidesVolume := aset st.sidesVolume o.Side (w - 1) }
        o mdUpdateActionDelete
      have hlen : (st.orders.eraseIdx i).length = st.orders.length - 1 := by
        rw [List.length_eraseIdx, if_pos hi]
      constructor
      · rw [h1, hcore.1, hcore.2.1]
        show ((st.orders.eraseIdx i).length : Int)
          = sumVals (aset st.typesVolume o.Type_ (v - 1))
        rw [hlen, sumVals_aset_some st.typesVolume o.Type_ v (v - 1) hv]
        have := hb.1
        omega
      · rw [h1, hcore.1, hcore.2.2.1]
        show ((st.orders.eraseIdx i).length : Int)
          = sumVals (aset st.sidesVolume o.Side (w - 1))
        rw [hlen, sumVals_aset_some st.sidesVolume o.Side w (w - 1) hw]
        have := hb.2
        omega

theorem balanced_runOps (ops : List BookOp) :
    ∀ st : Orders, balanced st → safeOpsB st ops = true → balanced (runOps st ops) := by
  induction ops with
  | nil =>
    intro st hb _
    simpa [runOps] using hb
  | cons op rest ih =>
    intro st hb hs
    simp only [safeOpsB, Bool.and_eq_true] at hs
    have hstep : runOps st (op :: rest) = runOps (applyOp st op).1 rest := by
      simp [runOps]
    rw [hstep]
    exact ih _ (balanced_applyOp st op hb hs.1) hs.2

theorem applyOp_isCrossed (st : Orders) (op : BookOp) :
    ((applyOp st op).1).isCrossed = st.isCrossed := by
  cases op with
  | add o =>
    cases h : getOrder st.orders o.Id with
    | some p => simp [applyOp, AddOrder, h]
    | none =>
      have hcore := sameCore_fillBestOrder
        { st with orders := st.orders ++ [o],
                  typesVolume := bump st.typesVolume o.Type_,
                  sidesVolume := bump st.sidesVolume o.Side } o
      simpa [applyOp, AddOrder, h] using hcore.2.2.2
  | update o =>
    cases h : getOrder st.orders o.Id with
    | none => simp [applyOp, UpdateOrder, h]
    | some p =>
      obtain ⟨po, i⟩ := p
      have hcore := sameCore_updateBestPrice
        { st with orders := st.orders.set i o } o mdUpdateActionChange
      simpa [applyOp, UpdateOrder, h] using hcore.2.2.2
  | delete o =>
    cases h : getOrder st.orders o.Id with
    | none => simp [applyOp, DeleteOrder, h]
    | some p =>
      obtain ⟨po, i⟩ := p
      cases hv : aget st.typesVolume o.Type_ with
      | none => simp [applyOp, DeleteOrder, h, hv]
      | some v =>
        cases hw : aget st.sidesVolume o.Side with
        | none => simp [applyOp, DeleteOrder, h, hv, hw]
        | some w =>
          have hcore := sameCore_updateBestPrice
            { st with orders := st.orders.eraseIdx i,
                      typesVolume := aset st.typesVolume o.Type_ (v - 1),
                      sidesVolume := aset st.sidesVolume o.Side (w - 1) }
            o mdUpdateActionDelete
          simpa [applyOp, DeleteOrder, h, hv, hw] using hcore.2.2.2

theorem runOps_isCrossed (ops : List BookOp) :
    ∀ st : Orders, (runOps st ops).isCrossed = st.isCrossed := by
  induction ops with
  | nil => intro st; simp [runOps]
  | cons op rest ih =>
    intro st
    have hstep : runOps st (op :: rest) = runOps (applyOp st op).1 rest := by
      simp [runOps]
    rw [hstep, ih, applyOp_isCrossed]

theorem crossedCond_setFlag (st : Orders) (c : Bool) :
    crossedCond { st with isCrossed := c } = crossedCond st := rfl

theorem isOrderBookCrossed_book (st : Orders) (m : Metrics) :
    (isOrderBookCrossed st m).2.1 = { st with isCrossed := crossedCond st } := by
  obtain ⟨ords, tv, sv, bb, bs, ic⟩ := st
  unfold isOrderBookCrossed
  cases hc : crossedCond ⟨ords, tv, sv, bb, bs, ic⟩ <;> cases ic <;> simp [hc]

theorem isOrderBookCrossed_gauge (st : Orders) (m : Metrics)
    (hm : m.bookCrossedGauge = if st.isCrossed then 1 else 0) :
    (isOrderBookCrossed st m).2.2.bookCrossedGauge
      = if crossedCond st then 1 else 0 := by
  unfold isOrderBookCrossed
  cases hc : crossedCond st <;> cases hic : st.isCrossed <;>
    rw [hic] at hm <;> simp [hc, hic, hm]

theorem isOrderBookCrossed_counter (st : Orders) (m : Metrics) :
    (isOrderBookCrossed st m).2.2.crossedUpdatesTotal
      = m.crossedUpdatesTotal
        + (if crossedCond st ∧ st.isCrossed = false then 1 else 0) := by
  unfold isOrderBookCrossed
  cases hc : crossedCond st <;> cases hic : st.isCrossed <;> simp [hc, hic]

/-- The standing relation between a book and its crossed metrics: the
gauge mirrors the latch and the latch mirrors the crossed condition. -/
def metricsOK (s : Orders × Metrics) : Prop :=
  s.2.bookCrossedGauge = (if s.1.isCrossed then 1 else 0) ∧
  s.1.isCrossed = crossedCond s.1

theorem validatorStep_metricsOK (s : Orders × Metrics) (ops : List BookOp)
    (hJ : metricsOK s) :
    metricsOK (validatorStep s ops) ∧
    (validatorStep s ops).2.crossedUpdatesTotal
      = s.2.crossedUpdatesTotal
        + (if crossedCond (validatorStep s ops).1 ∧ ¬(crossedCond s.1) then 1 else 0) := by
  obtain ⟨b0, m0⟩ := s
  have hbflag : (runOps b0 ops).isCrossed = b0.isCrossed := runOps_isCrossed ops b0
  have hm : m0.bookCrossedGauge = if (runOps b0 ops).isCrossed then 1 else 0 := by
    rw [hbflag]; exact hJ.1
  have hbook : (validatorStep (b0, m0) ops).1
      = { runOps b0 ops with isCrossed := crossedCond (runOps b0 ops) } := by
    show (isOrderBookCrossed (runOps b0 ops) m0).2.1 = _
    exact isOrderBookCrossed_book (runOps b0 ops) m0
  have hcond : crossedCond (validatorStep (b0, m0) ops).1
      = crossedCond (runOps b0 ops) := by
    rw [hbook, crossedCond_setFlag]
  refine ⟨⟨?_, ?_⟩, ?_⟩
  · show (isOrderBookCrossed (runOps b0 ops) m0).2.2.bookCrossedGauge = _
    rw [isOrderBookCrossed_gauge (runOps b0 ops) m0 hm, hbook]
  · rw [hbook]
    rfl
  · show (isOrderBookCrossed (runOps b0 ops) m0).2.2.crossedUpdatesTotal = _
    rw [isOrderBookCrossed_counter (runOps b0 ops) m0, hcond, hbflag]
    have hic : b0.isCrossed = crossedCond b0 := hJ.2
    cases hcc : crossedCond b0 <;> simp [hic, hcc]

theorem validatorRun_metricsOK (msgs : List (List BookOp)) :
    ∀ s : Orders × Metrics, metricsOK s →
      metricsOK (validatorRun s msgs) ∧
      (validatorRun s msgs).2.crossedUpdatesTotal
        = s.2.crossedUpdatesTotal
          + risingCount (crossedCond s.1) (crossedTrace s msgs) := by
  induction msgs with
  | nil =>
    intro s hJ
    exact ⟨by simpa [validatorRun] using hJ, by simp [validatorRun, crossedTrace, risingCount]⟩
  | cons ops rest ih =>
    intro s hJ
    have hstep := validatorStep_metricsOK s ops hJ
    have hrun : validatorRun s (ops :: rest) = validatorRun (validatorStep s ops) rest := by
      simp [validatorRun]
    have htrace : crossedTrace s (ops :: rest)
        = crossedCond (validatorStep s ops).1 :: crossedTrace (validatorStep s ops) rest := by
      simp [crossedTrace]
    have hrest := ih (validatorStep s ops) hstep.1
    refine ⟨by rw [hrun]; exact hrest.1, ?_⟩
    rw [hrun, hrest.2, hstep.2, htrace]
    have hseed : (validatorStep s ops).1.isCrossed
        = crossedCond (validatorStep s ops).1 := hstep.1.2
    show _ = s.2.crossedUpdatesTotal
      + risingCount (crossedCond s.1)
          (crossedCond (validatorStep s ops).1 :: crossedTrace (validatorStep s ops) rest)
    rw [risingCount]
    cases h1 : crossedCond (validatorStep s ops).1 <;> cases h2 : crossedCond s.1 <;>
      (simp [h1, h2]; try omega)

/-! ## Claim theorems -/

/-- C1 (code bug, evaluation at the failing input): deleting the best
Offer "o1"@100.00 SUCCEEDS while offer "o2"@101.00 remains in the book,
yet afterwards `bestSellOrder` is the zero-price `&Order{}` sentinel, not
the lowest-priced remaining offer "o2": the recomputation folds
`fillBestOrder` starting from the sentinel, and no positive price is
`LessThan` the sentinel's zero price, so the claimed best-offer property
fails after a successful `deleteOrder`. -/
theorem claim1_delete_best_offer_not_recomputed :
    (DeleteOrder (runOps initOrders [.add offerA, .add offerB]) offerA).2 = none ∧
    (runOps initOrders [.add offerA, .add offerB, .delete offerA]).orders = [offerB] ∧
    (runOps initOrders [.add offerA, .add offerB, .delete offerA]).bestSellOrder
      = some emptyOrder := by decide

/-- C2 (code bug, evaluation at the failing input): after the S3 snapshot
for symbol "ABC" the book does hold exactly one order and is not crossed,
but its best bid is the zero-price `&Order{}` sentinel (id "") rather
than the order "o1": the snapshot handler's `Order` literal never sets
`Price`, so the added bid's zero price cannot beat the sentinel inside
`fillBestOrder`. -/
theorem claim2_snapshot_best_bid_not_o1 :
    (onMarketDataSnapshotFullRefresh secListABC initMetrics snapshotS3).toOption.isSome
      = true ∧
    s3Book.orders.length = 1 ∧
    (s3Book.orders.map Order.Id) = ["o1"] ∧
    s3Book.bestBuyOrder = some emptyOrder ∧
    ¬(s3Book.bestBuyOrder.map Order.Id = some "o1") ∧
    s3Book.bestSellOrder = some emptyOrder ∧
    (isOrderBookCrossed s3Book initMetrics).1 = false := by decide

/-- C3 (code bug, evaluation at the failing input): updating the current
best bid "b1" from 100.00 down to 50.00 SUCCEEDS and replaces the stored
order in place, but `updateBestPrice` with the `CHANGE` action only calls
the improve-only `fillBestOrder`, so afterwards `bestBuyOrder` still
holds the OLD order "b1"@100.00 — an order no longer present in the
book — instead of the recomputed extremum "b2"@90.00. -/
theorem claim3_update_worse_best_is_stale :
    (UpdateOrder (runOps initOrders [.add bidA, .add bidB]) bidAChanged).2 = none ∧
    (runOps initOrders [.add bidA, .add bidB, .update bidAChanged]).orders
      = [bidAChanged, bidB] ∧
    (runOps initOrders [.add bidA, .add bidB, .update bidAChanged]).bestBuyOrder
      = some bidA := by decide

/-- C4 (code bug, evaluation at the failing input): in the reachable book
holding bid "b1"@100.00 and offer "o1"@100.00 a best bid and a best offer
both exist with bid price ≥ offer price, so the claim requires
`isCrossed() = true`; the code returns `false` because `bestSellOrder`
still holds the zero-price sentinel (a positive-priced offer never
replaces it in `fillBestOrder`) and the zero-price test fails. -/
theorem claim4_crossed_undetected_on_reachable_book :
    getOrdersBySide (runOps initOrders [.add bidA, .add offerA]) mdEntryTypeBid = [bidA] ∧
    getOrdersBySide (runOps initOrders [.add bidA, .add offerA]) mdEntryTypeOffer
      = [offerA] ∧
    offerA.Price ≤ bidA.Price ∧
    (isOrderBookCrossed (runOps initOrders [.add bidA, .add offerA]) initMetrics).1
      = false := by decide

/-- C5: along any sequence of validator updates to a security's book —
each update a batch of book operations followed by the handler's closing
`isOrderBookCrossed` call — the `book_crossed` gauge equals 1 exactly when
the book is crossed (and equals 0 exactly when it is not), and the
`crossed_updates_total` counter equals the number of uncrossed-to-crossed
transitions observed so far: it is incremented exactly once at each such
edge and never again while the book stays crossed. -/
theorem claim5_crossed_metric_invariants (msgs : List (List BookOp)) :
    ((validatorRun (initOrders, initMetrics) msgs).2.bookCrossedGauge = 1
        ↔ crossedCond (validatorRun (initOrders, initMetrics) msgs).1 = true) ∧
    ((validatorRun (initOrders, initMetrics) msgs).2.bookCrossedGauge = 0
        ↔ crossedCond (validatorRun (initOrders, initMetrics) msgs).1 = false) ∧
    (validatorRun (initOrders, initMetrics) msgs).2.crossedUpdatesTotal
      = risingCount false (crossedTrace (initOrders, initMetrics) msgs) := by
  have hinit : metricsOK (initOrders, initMetrics) := ⟨rfl, rfl⟩
  have hrun := validatorRun_metricsOK msgs (initOrders, initMetrics) hinit
  have hgauge := hrun.1.1
  have hflag := hrun.1.2
  rw [hflag] at hgauge
  refine ⟨?_, ?_, ?_⟩
  · rw [hgauge]
    cases hc : crossedCond (validatorRun (initOrders, initMetrics) msgs).1 <;> simp [hc]
  · rw [hgauge]
    cases hc : crossedCond (validatorRun (initOrders, initMetrics) msgs).1 <;> simp [hc]
  · have hseed : crossedCond initOrders = false := by decide
    rw [hrun.2]
    simp [initMetrics, hseed]

/-- C6 (amended): the bijection `|orders| = Σ typesVolume = Σ sidesVolume`
holds in every state reachable from the empty book by sequences of
`addOrder`, `updateOrder` and `deleteOrder` calls (successful or failing)
in which every `deleteOrder` whose id is present carries a type and a
side already recorded in the respective counter maps — i.e. no delete
takes the early `something wrong happened` return between the slice
removal and the counter decrements. -/
theorem claim6_amended_bijection (ops : List BookOp)
    (hs : safeOpsB initOrders ops = true) : balanced (runOps initOrders ops) :=
  balanced_runOps ops initOrders ⟨rfl, rfl⟩ hs

/-- Witness for the amended C6: adding and then deleting the same limit
bid is a safe sequence and the resulting state is balanced. -/
theorem claim6_amended_bijection_witness :
    safeOpsB initOrders [.add limitBidA, .delete limitBidA] = true ∧
    balanced (runOps initOrders [.add limitBidA, .delete limitBidA]) :=
  ⟨by decide, claim6_amended_bijection [.add limitBidA, .delete limitBidA] (by decide)⟩

/-- C6 (counterexample): the state reached from the empty book by
`addOrder(limit bid "a")` followed by `deleteOrder` of id "a" with
OrdType Market violates the bijection — the delete removes the order from
the slice, then returns `something wrong happened` because the Market key
is absent from `typesVolume`, leaving both counter sums at 1 while the
book is empty. -/
theorem claim6_counterexample_mismatched_delete :
    (runOps initOrders [.add limitBidA, .delete marketDeleteA]).orders.length = 0 ∧
    sumVals (runOps initOrders [.add limitBidA, .delete marketDeleteA]).typesVolume = 1 ∧
    sumVals (runOps initOrders [.add limitBidA, .delete marketDeleteA]).sidesVolume = 1 ∧
    ¬(((runOps initOrders [.add limitBidA, .delete marketDeleteA]).orders.length : Int)
        = sumVals (runOps initOrders [.add limitBidA, .delete marketDeleteA]).typesVolume)
    := by decide

/-- C7: `AddOrder` fails with `OrderAlreadyExists` if and only if an
order with the argument's id is already present; on that failure the
whole book state is unchanged; otherwise it succeeds, appends the order
and increments exactly the counter of the order's type and the counter
of the order's side by one each (all other counter keys untouched). -/
theorem claim7_addOrder_spec (st : Orders) (o : Order) :
    ((AddOrder st o).2 = some OrdersErr.orderAlreadyExists
        ↔ (getOrder st.orders o.Id).isSome = true) ∧
    ((getOrder st.orders o.Id).isSome = true → (AddOrder st o).1 = st) ∧
    ((getOrder st.orders o.Id).isSome = false →
      (AddOrder st o).2 = none ∧
      (AddOrder st o).1.orders = st.orders ++ [o] ∧
      aget (AddOrder st o).1.typesVolume o.Type_
        = some ((aget st.typesVolume o.Type_).getD 0 + 1) ∧
      aget (AddOrder st o).1.sidesVolume o.Side
        = some ((aget st.sidesVolume o.Side).getD 0 + 1) ∧
      (∀ k, k ≠ o.Type_ → aget (AddOrder st o).1.typesVolume k = aget st.typesVolume k) ∧
      (∀ k, k ≠ o.Side → aget (AddOrder st o).1.sidesVolume k = aget st.sidesVolume k)) := by
  cases h : getOrder st.orders o.Id with
  | some p =>
    exact ⟨by simp [AddOrder, h], fun _ => by simp [AddOrder, h],
      fun hc => by simp [h] at hc⟩
  | none =>
    have hcore := sameCore_fillBestOrder
      { st with orders := st.orders ++ [o],
                typesVolume := bump st.typesVolume o.Type_,
                sidesVolume := bump st.sidesVolume o.Side } o
    have h1 : (AddOrder st o).1 = fillBestOrder
        { st with orders := st.orders ++ [o],
                  typesVolume := bump st.typesVolume o.Type_,
                  sidesVolume := bump st.sidesVolume o.Side } o := by
      simp [AddOrder, h]
    refine ⟨by simp [AddOrder, h], fun hc => by simp [h] at hc, fun _ => ?_⟩
    refine ⟨by simp [AddOrder, h], ?_, ?_, ?_, ?_, ?_⟩
    · rw [h1, hcore.1]
    · rw [h1, hcore.2.1]
      exact aget_bump_self _ _
    · rw [h1, hcore.2.2.1]
      exact aget_bump_self _ _
    · intro k hk
      rw [h1, hcore.2.1]
      exact aget_bump_ne _ _ _ hk
    · intro k hk
      rw [h1, hcore.2.2.1]
      exact aget_bump_ne _ _ _ hk

/-- Witness for C7: a duplicate add of bid "b1" fails and leaves the
book unchanged; the first add into the empty book succeeds. -/
theorem claim7_addOrder_spec_witness :
    (AddOrder (runOps initOrders [.add bidA]) bidA).1 = runOps initOrders [.add bidA] ∧
    (AddOrder initOrders bidA).2 = none :=
  ⟨(claim7_addOrder_spec (runOps initOrders [.add bidA]) bidA).2.1 (by decide),
   ((claim7_addOrder_spec initOrders bidA).2.2 (by decide)).1⟩

/-- C8 (code bug, evaluation at the failing input): the non-FIXT exchange
session logs on and is appended; after `OnLogout` of that same session it
is STILL an element of `connectedExchanges`, because the source appends
the session back after the removal loop. -/
theorem claim8_logout_leaves_session_connected :
    exchSession.IsFIXT = false ∧
    (OnLogon newBridge exchSession).connectedExchanges = [exchSession] ∧
    (OnLogout (OnLogon newBridge exchSession) exchSession).connectedExchanges
      = [exchSession] := by decide

/-- C9 (counterexample): an execution report without a `ClOrdID` is NOT
logged-and-dropped — the handler returns a
`MessageRejectError "Missing ClOrdID"`. -/
theorem claim9_counterexample_missing_clordid_rejects :
    onExecutionReportExchange newBridge execReportNoClOrdID
      = .rejected (.messageReject "Missing ClOrdID") ∧
    ¬(onExecutionReportExchange newBridge execReportNoClOrdID = .dropped) := by decide

/-- C9 (amended): on an exchange execution report, a missing `ClOrdID`
returns a `MessageRejectError "Missing ClOrdID"` (a business-level
reject, not a disconnect), while a `ClOrdID` with no entry in the
correlation table logs a warning and drops the message returning no
reject; in both cases no message is forwarded to any client session. -/
theorem claim9_amended_exchange_response (app : Bridge) (msgBody : Body) :
    (getString msgBody tagClOrdID = none →
      onExecutionReportExchange app msgBody
        = .rejected (.messageReject "Missing ClOrdID")) ∧
    (∀ c, getString msgBody tagClOrdID = some c →
      aget app.orderMapping c = none →
      onExecutionReportExchange app msgBody = .dropped) ∧
    (∀ target body,
      (getString msgBody tagClOrdID = none ∨
        (∃ c, getString msgBody tagClOrdID = some c ∧ aget app.orderMapping c = none)) →
      onExecutionReportExchange app msgBody ≠ .forwarded target body) := by
  refine ⟨?_, ?_, ?_⟩
  · intro h
    simp [onExecutionReportExchange, h]
  · intro c hc hm
    simp [onExecutionReportExchange, hc, hm]
  · intro target body h
    rcases h with h | ⟨c, hc, hm⟩
    · simp [onExecutionReportExchange, h]
    · simp [onExecutionReportExchange, hc, hm]

/-- An execution report with a `ClOrdID` absent from the (empty)
correlation table. -/
def execReportUnmapped : Body := [(11, "c-9"), (37, "x")]

/-- Witness for the amended C9: the report without `ClOrdID` is rejected
and the report with an unmapped `ClOrdID` is dropped. -/
theorem claim9_amended_exchange_response_witness :
    onExecutionReportExchange newBridge execReportNoClOrdID
      = .rejected (.messageReject "Missing ClOrdID") ∧
    onExecutionReportExchange newBridge execReportUnmapped = .dropped :=
  ⟨(claim9_amended_exchange_response newBridge execReportNoClOrdID).1 rfl,
   (claim9_amended_exchange_response newBridge execReportUnmapped).2.1 "c-9" rfl rfl⟩

theorem applyIncrementalEntry_symbol_irrelevant (b : Orders) (e : MDEntry)
    (s : Option String) :
    applyIncrementalEntry b { e with symbol := s } = applyIncrementalEntry b e := by
  cases e
  rfl

theorem foldl_applyIncrementalEntry_eraseSym (l : List MDEntry) :
    ∀ b : Orders,
      (l.map (fun e => { e with symbol := none })).foldl applyIncrementalEntry b
        = l.foldl applyIncrementalEntry b := by
  induction l with
  | nil => intro b; rfl
  | cons e t ih =>
    intro b
    simp only [List.map_cons, List.foldl_cons,
      applyIncrementalEntry_symbol_irrelevant, ih]

/-- C10: an incremental refresh is rejected — with no book modified —
exactly when the entry group is absent or empty, the first entry carries
no `Symbol`, or that symbol is not subscribed; otherwise ALL entries of
the message are applied, in order, to the single book of the first
entry's symbol: every other security's book is unchanged, and the result
does not depend on the `Symbol` fields of the remaining entries. -/
theorem claim10_incremental_first_symbol_routing (sl : SecList) (m : Metrics)
    (msg : IncrementalMsg) :
    (msg.entries = none →
      ∃ e, onMarketDataIncrementalRefresh sl m msg = .error e) ∧
    (msg.entries = some [] →
      ∃ e, onMarketDataIncrementalRefresh sl m msg = .error e) ∧
    (∀ e0 rest, msg.entries = some (e0 :: rest) → e0.symbol = none →
      ∃ e, onMarketDataIncrementalRefresh sl m msg = .error e) ∧
    (∀ e0 rest sec, msg.entries = some (e0 :: rest) → e0.symbol = some sec →
      aget sl sec = none →
      ∃ e, onMarketDataIncrementalRefresh sl m msg = .error e) ∧
    (∀ e0 rest sec book, msg.entries = some (e0 :: rest) → e0.symbol = some sec →
      aget sl sec = some book →
      onMarketDataIncrementalRefresh sl m msg
        = .ok (aset sl sec
            (isOrderBookCrossed ((e0 :: rest).foldl applyIncrementalEntry book) m).2.1,
            (isOrderBookCrossed ((e0 :: rest).foldl applyIncrementalEntry book) m).2.2) ∧
      (∀ s2, s2 ≠ sec →
        aget (aset sl sec
            (isOrderBookCrossed ((e0 :: rest).foldl applyIncrementalEntry book) m).2.1) s2
          = aget sl s2) ∧
      onMarketDataIncrementalRefresh sl m msg
        = onMarketDataIncrementalRefresh sl m
            ⟨some (e0 :: rest.map (fun e => { e with symbol := none }))⟩) := by
  obtain ⟨entries⟩ := msg
  refine ⟨?_, ?_, ?_, ?_, ?_⟩
  · intro h
    subst h
    exact ⟨.fieldError tagNoMDEntries, rfl⟩
  · intro h
    subst h
    exact ⟨.messageReject "MDEntries seems empty", rfl⟩
  · intro e0 rest h hsym
    subst h
    refine ⟨.fieldError tagSymbol, ?_⟩
    simp [onMarketDataIncrementalRefresh, hsym]
  · intro e0 rest sec h hsym hn
    subst h
    refine ⟨.messageReject ("security not found: " ++ sec), ?_⟩
    simp [onMarketDataIncrementalRefresh, hsym, hn]
  · intro e0 rest sec book h hsym hb
    subst h
    have hf : (e0 :: rest.map (fun e => { e with symbol := none })).foldl
          applyIncrementalEntry book
        = (e0 :: rest).foldl applyIncrementalEntry book := by
      simp only [List.foldl_cons]
      exact foldl_applyIncrementalEntry_eraseSym rest (applyIncrementalEntry book e0)
    refine ⟨?_, ?_, ?_⟩
    · simp [onMarketDataIncrementalRefresh, hsym, hb]
    · intro s2 hs2
      exact aget_aset_ne sl sec s2 _ hs2
    · simp [onMarketDataIncrementalRefresh, hsym, hb, hf]

/-- A concrete incremental New entry for symbol "ABC". -/
def incEntryNew : MDEntry :=
  { entryType := some mdEntryTypeBid, orderID := some "b9", ordType := some "2",
    px := some 10000, size := 100, symbol := some "ABC",
    updateAction := some mdUpdateActionNew }

/-- Witness for C10: each reject branch fires on a concrete message, and
the successful branch applies the entry to the "ABC" book while leaving
other symbols untouched. -/
theorem claim10_incremental_first_symbol_routing_witness :
    (∃ e, onMarketDataIncrementalRefresh secListABC initMetrics ⟨none⟩ = .error e) ∧
    (∃ e, onMarketDataIncrementalRefresh secListABC initMetrics ⟨some []⟩ = .error e) ∧
    (∃ e, onMarketDataIncrementalRefresh secListABC initMetrics
        ⟨some [{ incEntryNew with symbol := none }]⟩ = .error e) ∧
    (∃ e, onMarketDataIncrementalRefresh secListABC initMetrics
        ⟨some [{ incEntryNew with symbol := some "XYZ" }]⟩ = .error e) ∧
    (∃ sl' m', onMarketDataIncrementalRefresh secListABC initMetrics ⟨some [incEntryNew]⟩
        = .ok (sl', m') ∧ aget sl' "ZZZ" = none) := by
  refine ⟨(claim10_incremental_first_symbol_routing secListABC initMetrics ⟨none⟩).1 rfl,
    (claim10_incremental_first_symbol_routing secListABC initMetrics ⟨some []⟩).2.1 rfl,
    (claim10_incremental_first_symbol_routing secListABC initMetrics
      ⟨some [{ incEntryNew with symbol := none }]⟩).2.2.1 _ [] rfl rfl,
    (claim10_incremental_first_symbol_routing secListABC initMetrics
      ⟨some [{ incEntryNew with symbol := some "XYZ" }]⟩).2.2.2.1 _ [] "XYZ" rfl rfl rfl,
    ?_⟩
  have H := (claim10_incremental_first_symbol_routing secListABC initMetrics
    ⟨some [incEntryNew]⟩).2.2.2.2 incEntryNew [] "ABC" initOrders rfl rfl rfl
  exact ⟨_, _, H.1, (H.2.1 "ZZZ" (by decide)).trans rfl⟩

end Fix



